import Mathlib

/-!
# Verification of the 2D geometry kernel (`geometry/main.py`)

Shallow embedding of the planar-geometry module: `Point`, `Line` (general
form `a*x + b*y + c = 0`), `Segment` and polygon operations, together with
proofs of the specified properties.

Numbers are modelled by exact rationals `ℚ`.  Python's `float('inf')`,
produced by the `ZeroDivisionError` handlers in `Line.slope` /
`Line.intercept`, is modelled by the extra constructor `ExtQ.inf`.
Fallible operations (Python exceptions) return `Except PyErr`.
-/

namespace Geometry

/-- The Python exceptions that the module can raise. -/
inductive PyErr where
  | zeroDivision
  | geometryException
  | assertionError
  | valueError
  | typeError
deriving DecidableEq, Repr

/-- Global precision, `EPSILON = Epsilon(1e-6)` in the source. -/
def EPSILON : ℚ := 1 / 1000000

/-- Source `Point: (x, y)`. -/
structure Point where
  x : ℚ
  y : ℚ
deriving DecidableEq, Repr

/-- Source `gradient(p, q)`: the slope of the segment from `p` to `q`; raises
`ZeroDivisionError` when `p.x - q.x = 0`. -/
def gradient (p q : Point) : Except PyErr ℚ :=
  if p.x - q.x = 0 then .error .zeroDivision
  else .ok ((p.y - q.y) / (p.x - q.x))

/-- A finite float value or the `float('inf')` produced by catching a
`ZeroDivisionError`. -/
inductive ExtQ where
  | fin (q : ℚ)
  | inf
deriving DecidableEq, Repr

/-- Source `Line: Ax + By + C = 0` (general equation form). -/
structure Line where
  a : ℚ
  b : ℚ
  c : ℚ
deriving DecidableEq, Repr

/-- Source `Line.x()`: the x-intercept point, `None` when `a == 0`. -/
def Line.xPoint (l : Line) : Option Point :=
  if l.a = 0 then none else some ⟨-l.c / l.a, 0⟩

/-- Source `Line.y()`: the y-intercept point, `None` when `b == 0`. -/
def Line.yPoint (l : Line) : Option Point :=
  if l.b = 0 then none else some ⟨0, -l.c / l.b⟩

/-- Source `Line.slope()`: `-a/b`, or `float('inf')` on `ZeroDivisionError`. -/
def Line.slope (l : Line) : ExtQ :=
  if l.b = 0 then .inf else .fin (-l.a / l.b)

/-- Source `Line.intercept()`: `-c/b`, or `float('inf')` on `ZeroDivisionError`. -/
def Line.intercept (l : Line) : ExtQ :=
  if l.b = 0 then .inf else .fin (-l.c / l.b)

/-- Source `Line.__contains__(point)`: `|a*x + b*y + c| <= EPSILON`. -/
def Line.contains (l : Line) (p : Point) : Bool :=
  decide (|l.a * p.x + l.b * p.y + l.c| ≤ EPSILON)

/-- Source `Line.__eq__`: same slope and same intercept (not same coefficients). -/
def Line.pyEq (l1 l2 : Line) : Bool :=
  decide (l1.slope = l2.slope) && decide (l1.intercept = l2.intercept)

/-- The `x is not None and y is None` branch of `Line.__call__`:
the value returned for a given `x`. -/
def Line.callX (l : Line) (x : ℚ) : ℚ :=
  if l.b = 0 then -l.a * x - l.c else (-l.a * x - l.c) / l.b

/-- The `y is not None and x is None` branch of `Line.__call__`:
the value returned for a given `y`. -/
def Line.callY (l : Line) (y : ℚ) : ℚ :=
  if l.a = 0 then -l.b * y - l.c else (-l.b * y - l.c) / l.a

/-- Source `Line.__call__(x=..., y=...)`: solve for the missing coordinate;
raises `GeometryException` when both or neither argument is supplied. -/
def Line.evaluate (l : Line) (x? y? : Option ℚ) : Except PyErr ℚ :=
  match x?, y? with
  | some x, none => .ok (l.callX x)
  | none, some y => .ok (l.callY y)
  | _, _ => .error .geometryException

/-- Result type of `Line.intersect`: a `Point`, a `Line`, or `None`. -/
inductive InterResult where
  | pt (p : Point)
  | ln (l : Line)
  | none
deriving DecidableEq, Repr

/-- Source `Line.intersect(other)`. -/
def Line.intersect (l1 l2 : Line) : InterResult :=
  let denom := l1.b * l2.a - l1.a * l2.b
  if denom = 0 then  -- equal slopes
    if l1.intercept ≠ l2.intercept then .none  -- identical or parallel
    else .ln ⟨l1.a, l1.b, l1.c⟩
  else
    let x := (l1.c * l2.b - l1.b * l2.c) / denom
    .pt ⟨x, if l1.yPoint.isSome then l1.callX x else l2.callX x⟩

/-- Source `Line.vline(x)`. -/
def Line.vline (x : ℚ) : Line := ⟨1, 0, -x⟩

/-- Source `Line.hline(y)`. -/
def Line.hline (y : ℚ) : Line := ⟨0, 0, y⟩

/-- Source `Line.from_slope_intercept_form(slope, intercept)`. -/
def Line.from_slope_intercept_form (slope intercept : ℚ) : Line :=
  ⟨slope, -1, intercept⟩

/-- Source `Line.from_point_slope_form(point, slope)`. -/
def Line.from_point_slope_form (p : Point) (slope : ℚ) : Line :=
  ⟨slope, -1, p.y - slope * p.x⟩

/-- Source `Line.from_points(a, b)`.  In the second branch `gradient(a, b)` cannot
raise because `a.x ≠ b.x`, so it is inlined as an exact division. -/
def Line.from_points (p q : Point) : Line :=
  if p.x = q.x then Line.vline p.x  -- x = b
  else Line.from_point_slope_form p ((p.y - q.y) / (p.x - q.x))

/-- Source `Segment: (A, B)`. -/
structure Segment where
  A : Point
  B : Point
deriving DecidableEq, Repr

/-- Source `Segment.midpoint()`: componentwise mean of the two endpoints. -/
def Segment.midpoint (s : Segment) : Point :=
  ⟨(s.A.x + s.B.x) / 2, (s.A.y + s.B.y) / 2⟩

/-- Source `Segment.perpendicular(other)`: a perpendicular line through the given
point.  The `denom == 0` guard covers only the horizontal-segment case; a
vertical segment reaches `gradient` and raises `ZeroDivisionError`.
(The inner `-1 / g` cannot raise: in that branch `A.y ≠ B.y`, so `g ≠ 0`.) -/
def Segment.perpendicular (s : Segment) (other : Point) : Except PyErr Line :=
  if s.A.y - s.B.y = 0 then .ok (Line.vline other.x)
  else
    match gradient s.A s.B with
    | .error e => .error e
    | .ok g => .ok (Line.from_point_slope_form other (-1 / g))

/-- Source `Segment.perpendicular_bisector()`. -/
def Segment.perpendicular_bisector (s : Segment) : Except PyErr Line :=
  s.perpendicular s.midpoint

/-- A `Polygon` is its ordered sequence of vertices (`unpack(self)`); the
generated field labels carry no algorithmic weight. -/
abbrev Polygon := List Point

/-- Exception-propagating map: Python list comprehension over a fallible
function, aborting at the first raised exception. -/
def mapE {α β : Type} (f : α → Except PyErr β) : List α → Except PyErr (List β)
  | [] => .ok []
  | a :: l =>
    match f a with
    | .error e => .error e
    | .ok b =>
      match mapE f l with
      | .error e => .error e
      | .ok bs => .ok (b :: bs)

/-- Source `Polygon.segments()`: `map(Segment, points, points[1:] + points)`
(truncates at the shorter argument, i.e. at `n`). -/
def segments (pts : Polygon) : List Segment :=
  List.zipWith Segment.mk pts (pts.drop 1 ++ pts)

/-- Source `Polygon.perpendicular_bisectors()`. -/
def perpendicular_bisectors (pts : Polygon) : Except PyErr (List Line) :=
  mapE Segment.perpendicular_bisector (segments pts)

/-- Source `Polygon.perpendicular_heights()`:
`[s.perpendicular(p) for p, s in zip(unpack(self), segments[1:] + segments)]`. -/
def perpendicular_heights (pts : Polygon) : Except PyErr (List Line) :=
  mapE (fun ps => ps.2.perpendicular ps.1)
    (List.zip pts ((segments pts).drop 1 ++ segments pts))

/-- Source `Polygon.centroid()`: componentwise mean of all vertices (the module
function `midpoint(*self)`; meaningful for nonempty vertex lists). -/
def centroid (pts : Polygon) : Point :=
  ⟨(pts.map Point.x).sum / (pts.length : ℚ), (pts.map Point.y).sum / (pts.length : ℚ)⟩

/-- Source `Polygon.circumcenter()`: asserts 3 vertices, intersects the first two
perpendicular bisectors.  The unreachable under-length unpacking is a
`ValueError`. -/
def circumcenter (pts : Polygon) : Except PyErr InterResult :=
  if pts.length = 3 then
    match perpendicular_bisectors pts with
    | .error e => .error e
    | .ok (b0 :: b1 :: _) => .ok (b0.intersect b1)
    | .ok _ => .error .valueError
  else .error .assertionError

/-- Source `Polygon.orthocenter()`: asserts 3 vertices, intersects the first two
perpendicular heights. -/
def orthocenter (pts : Polygon) : Except PyErr InterResult :=
  if pts.length = 3 then
    match perpendicular_heights pts with
    | .error e => .error e
    | .ok (h0 :: h1 :: _) => .ok (h0.intersect h1)
    | .ok _ => .error .valueError
  else .error .assertionError

/-- Source `Polygon.euler()`: `Line.from_points(circumcenter, centroid)`.  When the
circumcenter computation yields a `Line` or `None` instead of a `Point`,
`from_points` fails on attribute access / unpacking, modelled as
`TypeError`. -/
def euler (pts : Polygon) : Except PyErr Line :=
  if pts.length = 3 then
    match circumcenter pts with
    | .ok (.pt o) => .ok (Line.from_points o (centroid pts))
    | .ok _ => .error .typeError
    | .error e => .error e
  else .error .assertionError

/-- Euclidean distance (`math.dist`). -/
noncomputable def Point.dist (p q : Point) : ℝ :=
  Real.sqrt (((p.x - q.x : ℚ) : ℝ) ^ 2 + ((p.y - q.y : ℚ) : ℝ) ^ 2)

/-- The line `l` is perpendicular to the segment `s`: the direction vector
`(-b, a)` of `l` is orthogonal to `B - A`, i.e. `B - A` is parallel to the
normal `(a, b)` of `l`. -/
def Line.perpSeg (l : Line) (s : Segment) : Prop :=
  (s.B.x - s.A.x) * l.b - (s.B.y - s.A.y) * l.a = 0

/-! ## Helper lemmas -/

/-- A point satisfying the line equation exactly is contained within the
tolerance. -/
theorem contains_of_exact (l : Line) (p : Point)
    (h : l.a * p.x + l.b * p.y + l.c = 0) : l.contains p = true := by
  simp only [Line.contains, h, decide_eq_true_eq]
  norm_num [EPSILON]

/-! ## Claims -/

/-- Claim C5: `Line.vline(x)` returns the coefficient triple `(1, 0, -x)` and
`Line.hline(y)` returns `(0, 0, y)` — the asymmetric encoding, with `b` left
at `0` in `hline`. -/
theorem vline_hline_coefficients (x y : ℚ) :
    Line.vline x = ⟨1, 0, -x⟩ ∧ Line.hline y = ⟨0, 0, y⟩ :=
  ⟨rfl, rfl⟩

/-- Claim C6: a Line scaled by a nonzero scalar `k` compares equal (under the
slope-and-intercept equality `Line.__eq__`) to the original line. -/
theorem pyEq_scalar_multiple (a b c k : ℚ) (hab : ¬(a = 0 ∧ b = 0))
    (hk : k ≠ 0) : Line.pyEq ⟨k * a, k * b, k * c⟩ ⟨a, b, c⟩ = true := by
  by_cases hb : b = 0
  · simp [Line.pyEq, Line.slope, Line.intercept, hb]
  · have hkb : k * b ≠ 0 := mul_ne_zero hk hb
    simp only [Line.pyEq, Line.slope, Line.intercept, hb, hkb, if_neg,
      Bool.and_eq_true, decide_eq_true_eq]
    constructor
    · congr 1
      field_simp
      ring
    · congr 1
      field_simp
      ring

/-- Witness for C6 at `(a,b,c) = (1,2,3)`, `k = 2`. -/
theorem pyEq_scalar_multiple_witness :
    ¬((1 : ℚ) = 0 ∧ (2 : ℚ) = 0) ∧ (2 : ℚ) ≠ 0 ∧
    Line.pyEq ⟨2 * 1, 2 * 2, 2 * 3⟩ ⟨1, 2, 3⟩ = true :=
  ⟨by norm_num, by norm_num, pyEq_scalar_multiple 1 2 3 2 (by norm_num) (by norm_num)⟩

/-- Claim C8: `from_points(p, q)` for `p ≠ q` is the vertical line `x = p.x`
when `p.x = q.x`, otherwise the line through `p` with slope
`(p.y - q.y)/(p.x - q.x)`; it contains both `p` and `q`. -/
theorem from_points_contains (p q : Point) (hpq : p ≠ q) :
    (p.x = q.x → Line.from_points p q = Line.vline p.x) ∧
    (p.x ≠ q.x → Line.from_points p q =
      Line.from_point_slope_form p ((p.y - q.y) / (p.x - q.x))) ∧
    (Line.from_points p q).contains p = true ∧
    (Line.from_points p q).contains q = true := by
  refine ⟨fun h => by simp [Line.from_points, h],
          fun h => by simp [Line.from_points, h], ?_, ?_⟩
  · unfold Line.from_points
    split
    · exact contains_of_exact _ _ (by simp only [Line.vline]; ring)
    · exact contains_of_exact _ _ (by simp only [Line.from_point_slope_form]; ring)
  · unfold Line.from_points
    split
    · rename_i h
      exact contains_of_exact _ _ (by simp only [Line.vline, h]; ring)
    · rename_i h
      apply contains_of_exact
      have hx : p.x - q.x ≠ 0 := sub_ne_zero.mpr h
      simp only [Line.from_point_slope_form]
      field_simp
      ring

/-- Witness for C8 at `p = (1,2)`, `q = (3,5)`. -/
theorem from_points_contains_witness :
    (Point.mk 1 2) ≠ (Point.mk 3 5) ∧
    (Line.from_points ⟨1, 2⟩ ⟨3, 5⟩).contains ⟨1, 2⟩ = true ∧
    (Line.from_points ⟨1, 2⟩ ⟨3, 5⟩).contains ⟨3, 5⟩ = true :=
  ⟨by simp, (from_points_contains ⟨1, 2⟩ ⟨3, 5⟩ (by simp)).2.2.1,
   (from_points_contains ⟨1, 2⟩ ⟨3, 5⟩ (by simp)).2.2.2⟩

/-- Claim C9: on a vertical segment (equal x-coordinates, distinct
y-coordinates) `Segment.perpendicular` — and hence
`Segment.perpendicular_bisector` — raises `ZeroDivisionError`: the
zero-denominator guard only covers the horizontal case, and `gradient`
divides by `A.x - B.x = 0`. -/
theorem vertical_segment_perpendicular_zero_division (s : Segment) (p : Point)
    (hx : s.A.x = s.B.x) (hy : s.A.y ≠ s.B.y) :
    s.perpendicular p = .error .zeroDivision ∧
    s.perpendicular_bisector = .error .zeroDivision := by
  have h1 : ¬(s.A.y - s.B.y = 0) := sub_ne_zero.mpr hy
  have h2 : s.A.x - s.B.x = 0 := sub_eq_zero.mpr hx
  constructor
  · simp [Segment.perpendicular, gradient, h1, h2]
  · simp [Segment.perpendicular_bisector, Segment.perpendicular, gradient, h1, h2]

/-- Witness for C9 on the vertical segment from `(1,2)` to `(1,5)`. -/
theorem vertical_segment_perpendicular_zero_division_witness :
    (Segment.mk ⟨1, 2⟩ ⟨1, 5⟩).A.x = (Segment.mk ⟨1, 2⟩ ⟨1, 5⟩).B.x ∧
    (Segment.mk ⟨1, 2⟩ ⟨1, 5⟩).A.y ≠ (Segment.mk ⟨1, 2⟩ ⟨1, 5⟩).B.y ∧
    (Segment.mk ⟨1, 2⟩ ⟨1, 5⟩).perpendicular ⟨0, 0⟩ = .error .zeroDivision ∧
    (Segment.mk ⟨1, 2⟩ ⟨1, 5⟩).perpendicular_bisector = .error .zeroDivision := by
  have T := vertical_segment_perpendicular_zero_division ⟨⟨1, 2⟩, ⟨1, 5⟩⟩ ⟨0, 0⟩
    (by norm_num) (by norm_num)
  exact ⟨by norm_num, by norm_num, T.1, T.2⟩

/-- Claim C10: two vertical lines `(a1, 0, c1)` and `(a2, 0, c2)` with
`a1, a2 ≠ 0` compare equal under `Line.__eq__` even when their x-intercepts
differ, because slope and intercept are both `inf`; hence `intersect`
returns the identical-line result `Line(a1, 0, c1)` rather than no value. -/
theorem vertical_lines_pyEq_and_intersect (a1 c1 a2 c2 : ℚ)
    (h1 : a1 ≠ 0) (h2 : a2 ≠ 0)
    (hx : Line.xPoint ⟨a1, 0, c1⟩ ≠ Line.xPoint ⟨a2, 0, c2⟩) :
    Line.pyEq ⟨a1, 0, c1⟩ ⟨a2, 0, c2⟩ = true ∧
    Line.intersect ⟨a1, 0, c1⟩ ⟨a2, 0, c2⟩ = .ln ⟨a1, 0, c1⟩ := by
  constructor
  · simp [Line.pyEq, Line.slope, Line.intercept]
  · simp [Line.intersect, Line.intercept]

/-- Witness for C10 on `x = 1` and `x = 2` (as `(1,0,-1)` and `(1,0,-2)`). -/
theorem vertical_lines_pyEq_and_intersect_witness :
    (1 : ℚ) ≠ 0 ∧
    Line.xPoint ⟨1, 0, -1⟩ ≠ Line.xPoint ⟨1, 0, -2⟩ ∧
    Line.pyEq ⟨1, 0, -1⟩ ⟨1, 0, -2⟩ = true ∧
    Line.intersect ⟨1, 0, -1⟩ ⟨1, 0, -2⟩ = .ln ⟨1, 0, -1⟩ := by
  have hx : Line.xPoint ⟨1, 0, -1⟩ ≠ Line.xPoint ⟨(1 : ℚ), 0, -2⟩ := by
    norm_num [Line.xPoint]
  have T := vertical_lines_pyEq_and_intersect 1 (-1) 1 (-2)
    (by norm_num) (by norm_num) hx
  exact ⟨by norm_num, hx, T.1, T.2⟩

/-- Claim C2: when `denom = b1*a2 - a1*b2 = 0`, `intersect` returns `None`
if the intercepts differ and otherwise the line `Line(a1, b1, c1)` itself;
in particular `l.intersect(l)` returns `l`. -/
theorem intersect_parallel (l1 l2 : Line)
    (h : l1.b * l2.a - l1.a * l2.b = 0) :
    (l1.intercept ≠ l2.intercept → l1.intersect l2 = .none) ∧
    (l1.intercept = l2.intercept → l1.intersect l2 = .ln l1) ∧
    (∀ l : Line, l.intersect l = .ln l) := by
  refine ⟨fun hne => by simp [Line.intersect, h, hne],
          fun heq => by simp [Line.intersect, h, heq],
          fun l => by simp [Line.intersect, mul_comm]⟩

/-- Witness for C2 with the parallel pair `(1,2,3)`, `(2,4,5)` and the
self-intersection of `(1,2,3)`. -/
theorem intersect_parallel_witness :
    (Line.mk 1 2 3).b * (Line.mk 2 4 5).a - (Line.mk 1 2 3).a * (Line.mk 2 4 5).b = 0 ∧
    (Line.mk 1 2 3).intercept ≠ (Line.mk 2 4 5).intercept ∧
    Line.intersect ⟨1, 2, 3⟩ ⟨2, 4, 5⟩ = .none ∧
    Line.intersect ⟨1, 2, 3⟩ ⟨1, 2, 3⟩ = .ln ⟨1, 2, 3⟩ := by
  have hne : (Line.mk 1 2 3).intercept ≠ (Line.mk 2 4 5).intercept := by
    simp [Line.intercept]
    norm_num
  have T := intersect_parallel ⟨1, 2, 3⟩ ⟨2, 4, 5⟩ (by norm_num)
  exact ⟨by norm_num, hne, T.1 hne, T.2.2 ⟨1, 2, 3⟩⟩

/-- Claim C7 (amended): `evaluate` raises the invalid-argument
`GeometryException` iff both or neither of x/y are supplied.  When exactly
one is supplied it returns `callX`/`callY`, and that value solves the
general equation `a*x + b*y + c = 0` whenever the coefficient of the
solved-for variable (`b` for a given x, `a` for a given y) is nonzero; when
that coefficient is zero the code returns `-a*x - c` (resp. `-b*y - c`)
without dividing, which need not lie on the line. -/
theorem evaluate_spec (l : Line) :
    (∀ x y : ℚ, l.evaluate (some x) (some y) = .error .geometryException) ∧
    (l.evaluate none none = .error .geometryException) ∧
    (∀ x : ℚ, l.evaluate (some x) none = .ok (l.callX x)) ∧
    (∀ y : ℚ, l.evaluate none (some y) = .ok (l.callY y)) ∧
    (∀ x : ℚ, l.b ≠ 0 → l.a * x + l.b * l.callX x + l.c = 0) ∧
    (∀ y : ℚ, l.a ≠ 0 → l.a * l.callY y + l.b * y + l.c = 0) := by
  refine ⟨fun x y => rfl, rfl, fun x => rfl, fun y => rfl, ?_, ?_⟩
  · intro x hb
    simp only [Line.callX, hb, if_neg]
    field_simp
    ring
  · intro y ha
    simp only [Line.callY, ha, if_neg]
    field_simp
    ring

/-- Witness for C7 on the line `2x + 3y + 4 = 0` at `x = 5`. -/
theorem evaluate_spec_witness :
    (Line.mk 2 3 4).evaluate (some 1) (some 1) = .error .geometryException ∧
    (Line.mk 2 3 4).evaluate none none = .error .geometryException ∧
    (Line.mk 2 3 4).b ≠ 0 ∧
    (Line.mk 2 3 4).a * 5 + (Line.mk 2 3 4).b * ((Line.mk 2 3 4).callX 5) +
      (Line.mk 2 3 4).c = 0 := by
  have T := evaluate_spec ⟨2, 3, 4⟩
  exact ⟨T.1 1 1, T.2.1, by norm_num, T.2.2.2.2.1 5 (by norm_num)⟩

/-- Counterexample to C7 as stated: on the vertical line `x = 0`
(`Line(1,0,0)`), `evaluate(x=1)` returns `-1`, but `(1, -1)` does not solve
the general equation (nor lie on the line within tolerance). -/
theorem evaluate_counterexample :
    (Line.mk 1 0 0).evaluate (some 1) none = .ok (-1) ∧
    (Line.mk 1 0 0).a * 1 + (Line.mk 1 0 0).b * (-1) + (Line.mk 1 0 0).c ≠ 0 ∧
    (Line.mk 1 0 0).contains ⟨1, -1⟩ = false := by
  refine ⟨by norm_num [Line.evaluate, Line.callX], by norm_num, ?_⟩
  norm_num [Line.contains, EPSILON]

/-- Claim C1: for non-parallel lines (`denom = b1*a2 - a1*b2 ≠ 0`),
`intersect` returns a Point contained in both lines; its x-coordinate is
given by Cramer's rule and its y-coordinate by back-substituting into
whichever line has a defined y-intercept (`l1` when `b1 ≠ 0`, else `l2`). -/
theorem intersect_nonparallel (l1 l2 : Line)
    (h : l1.b * l2.a - l1.a * l2.b ≠ 0) :
    ∃ p : Point,
      l1.intersect l2 = .pt p ∧
      p.x = (l1.c * l2.b - l1.b * l2.c) / (l1.b * l2.a - l1.a * l2.b) ∧
      p.y = (if l1.b ≠ 0 then l1.callX p.x else l2.callX p.x) ∧
      l1.contains p = true ∧ l2.contains p = true := by
  by_cases hb : l1.b = 0
  · have ha1 : l1.a ≠ 0 := fun hz => h (by rw [hb, hz]; ring)
    have hb2 : l2.b ≠ 0 := fun hz => h (by rw [hb, hz]; ring)
    refine ⟨⟨(l1.c * l2.b - l1.b * l2.c) / (l1.b * l2.a - l1.a * l2.b),
      l2.callX ((l1.c * l2.b - l1.b * l2.c) / (l1.b * l2.a - l1.a * l2.b))⟩,
      ?_, rfl, by simp [hb], ?_, ?_⟩
    · simp only [Line.intersect]
      rw [if_neg h]
      simp [Line.yPoint, hb]
    · apply contains_of_exact
      have hD : (0 : ℚ) * l2.a - l1.a * l2.b ≠ 0 := by simpa [hb] using h
      rw [hb]
      field_simp
      ring
    · apply contains_of_exact
      simp only [Line.callX, hb2, if_neg]
      field_simp
      ring
  · refine ⟨⟨(l1.c * l2.b - l1.b * l2.c) / (l1.b * l2.a - l1.a * l2.b),
      l1.callX ((l1.c * l2.b - l1.b * l2.c) / (l1.b * l2.a - l1.a * l2.b))⟩,
      ?_, rfl, by simp [hb], ?_, ?_⟩
    · simp [Line.intersect, h, Line.yPoint, hb]
    · apply contains_of_exact
      simp only [Line.callX, hb, if_neg]
      field_simp
      ring
    · apply contains_of_exact
      simp only [Line.callX, hb, if_neg]
      field_simp
      ring

/-- Witness for C1 on the doctest pair `y = 3x + 2`, `y = -2x + 12`
(intersection `(2, 8)`). -/
theorem intersect_nonparallel_witness :
    (Line.mk 3 (-1) 2).b * (Line.mk (-2) (-1) 12).a -
      (Line.mk 3 (-1) 2).a * (Line.mk (-2) (-1) 12).b ≠ 0 ∧
    ∃ p : Point,
      Line.intersect ⟨3, -1, 2⟩ ⟨-2, -1, 12⟩ = .pt p ∧
      p.x = ((Line.mk 3 (-1) 2).c * (Line.mk (-2) (-1) 12).b -
          (Line.mk 3 (-1) 2).b * (Line.mk (-2) (-1) 12).c) /
        ((Line.mk 3 (-1) 2).b * (Line.mk (-2) (-1) 12).a -
          (Line.mk 3 (-1) 2).a * (Line.mk (-2) (-1) 12).b) ∧
      p.y = (if (Line.mk 3 (-1) 2).b ≠ 0 then (Line.mk 3 (-1) 2).callX p.x
        else (Line.mk (-2) (-1) 12).callX p.x) ∧
      (Line.mk 3 (-1) 2).contains p = true ∧
      (Line.mk (-2) (-1) 12).contains p = true :=
  ⟨by norm_num, intersect_nonparallel ⟨3, -1, 2⟩ ⟨-2, -1, 12⟩ (by norm_num)⟩

/-- Success of `mapE` determines the length and each entry of the result. -/
theorem mapE_ok {α β : Type} (f : α → Except PyErr β) (l : List α)
    (res : List β) (h : mapE f l = .ok res) :
    res.length = l.length ∧
    ∀ i (hi : i < l.length) (hi2 : i < res.length),
      f (l.get ⟨i, hi⟩) = .ok (res.get ⟨i, hi2⟩) := by
  induction l generalizing res with
  | nil =>
    simp only [mapE, Except.ok.injEq] at h
    subst h
    exact ⟨rfl, fun i hi hi2 => absurd hi (by simp)⟩
  | cons a l ih =>
    simp only [mapE] at h
    cases hfa : f a with
    | error e =>
      simp only [hfa] at h
      exact absurd h (by simp)
    | ok b =>
      simp only [hfa] at h
      cases hrec : mapE f l with
      | error e =>
        simp only [hrec] at h
        exact absurd h (by simp)
      | ok bs =>
        simp only [hrec, Except.ok.injEq] at h
        subst h
        obtain ⟨hlen, hidx⟩ := ih bs hrec
        refine ⟨by simp [hlen], ?_⟩
        intro i hi hi2
        match i with
        | 0 => simpa using hfa
        | n + 1 => exact hidx n (by simpa using hi) (by simpa using hi2)

/-- Source `segments` returns one segment per vertex. -/
theorem segments_length (pts : Polygon) :
    (segments pts).length = pts.length := by
  simp only [segments, List.length_zipWith, List.length_append, List.length_drop]
  omega

/-- Indexing the rotated list `l.drop 1 ++ l` at `i < l.length` picks the
element at `(i + 1) % l.length`. -/
theorem drop_one_append_get {α : Type} (l : List α) (i : ℕ) (hi : i < l.length)
    (hi2 : i < (l.drop 1 ++ l).length) :
    (l.drop 1 ++ l).get ⟨i, hi2⟩ =
      l.get ⟨(i + 1) % l.length, Nat.mod_lt _ (by omega)⟩ := by
  simp only [List.get_eq_getElem]
  by_cases hlt : i + 1 < l.length
  · have h1 : i < (l.drop 1).length := by simp; omega
    rw [List.getElem_append_left h1, List.getElem_drop]
    have e1 : (i + 1) % l.length = 1 + i := by rw [Nat.mod_eq_of_lt hlt]; omega
    simp [e1]
  · have h1 : (l.drop 1).length ≤ i := by simp; omega
    rw [List.getElem_append_right h1]
    have e0 : (i + 1) % l.length = 0 := by
      have : i + 1 = l.length := by omega
      rw [this, Nat.mod_self]
    have e1 : i - (l.length - 1) = 0 := by omega
    simp [e0, e1]

/-- The `j`-th segment joins vertex `j` to vertex `(j + 1) % n`. -/
theorem segments_get (pts : Polygon) (j : ℕ) (hj : j < pts.length)
    (hj2 : j < (segments pts).length) :
    (segments pts).get ⟨j, hj2⟩ =
      ⟨pts.get ⟨j, hj⟩, pts.get ⟨(j + 1) % pts.length, Nat.mod_lt _ (by omega)⟩⟩ := by
  have hb : j < (pts.drop 1 ++ pts).length := by simp; omega
  have h2 := drop_one_append_get pts j hj hb
  simp only [segments, List.get_eq_getElem] at h2 ⊢
  rw [List.getElem_zipWith]
  rw [h2]

/-- A successfully constructed perpendicular passes exactly through the
requested point. -/
theorem perpendicular_ok_through (s : Segment) (t : Point) (l : Line)
    (h : s.perpendicular t = .ok l) :
    l.a * t.x + l.b * t.y + l.c = 0 := by
  by_cases hd : s.A.y - s.B.y = 0
  · simp only [Segment.perpendicular, hd, if_pos, Except.ok.injEq] at h
    subst h
    simp only [Line.vline]
    ring
  · by_cases hx : s.A.x - s.B.x = 0
    · simp [Segment.perpendicular, gradient, hd, hx] at h
    · simp only [Segment.perpendicular, gradient, hd, hx, if_neg,
        if_false, Except.ok.injEq] at h
      subst h
      simp only [Line.from_point_slope_form]
      ring

/-- A successfully constructed perpendicular is perpendicular to its
segment. -/
theorem perpendicular_ok_perpSeg (s : Segment) (t : Point) (l : Line)
    (h : s.perpendicular t = .ok l) : l.perpSeg s := by
  by_cases hd : s.A.y - s.B.y = 0
  · simp only [Segment.perpendicular, hd, if_pos, Except.ok.injEq] at h
    subst h
    simp only [Line.perpSeg, Line.vline]
    linear_combination hd
  · by_cases hx : s.A.x - s.B.x = 0
    · simp [Segment.perpendicular, gradient, hd, hx] at h
    · simp only [Segment.perpendicular, gradient, hd, hx, if_neg,
        if_false, Except.ok.injEq] at h
      subst h
      simp only [Line.perpSeg, Line.from_point_slope_form]
      field_simp
      ring

/-- Claim C4 (amended): `perpendicular_heights` returns one line per edge,
and pairs vertex `i` with edge `i+1` (one position ahead): the `i`-th
produced line passes through vertex `i` and is perpendicular to the edge
from vertex `(i+1) % n` to vertex `(i+2) % n`. -/
theorem perpendicular_heights_pairing (pts : Polygon) (hn : 3 ≤ pts.length)
    (hs : List Line) (h : perpendicular_heights pts = .ok hs) :
    hs.length = pts.length ∧
    ∀ i (hi : i < pts.length) (hi2 : i < hs.length),
      (hs.get ⟨i, hi2⟩).contains (pts.get ⟨i, hi⟩) = true ∧
      (hs.get ⟨i, hi2⟩).perpSeg
        ⟨pts.get ⟨(i + 1) % pts.length, Nat.mod_lt _ (by omega)⟩,
         pts.get ⟨(i + 2) % pts.length, Nat.mod_lt _ (by omega)⟩⟩ := by
  unfold perpendicular_heights at h
  obtain ⟨hlen, hidx⟩ := mapE_ok _ _ _ h
  have hslen : ((segments pts).drop 1 ++ segments pts).length = 2 * pts.length - 1 := by
    simp [segments_length]
    omega
  have hzlen : (List.zip pts ((segments pts).drop 1 ++ segments pts)).length
      = pts.length := by
    simp only [List.length_zip, hslen]
    omega
  refine ⟨by omega, ?_⟩
  intro i hi hi2
  have hzi : i < (List.zip pts ((segments pts).drop 1 ++ segments pts)).length := by
    omega
  have hkey := hidx i hzi (by omega)
  have hri : i < ((segments pts).drop 1 ++ segments pts).length := by omega
  have hsegi : i < (segments pts).length := by rw [segments_length]; omega
  have hz : (List.zip pts ((segments pts).drop 1 ++ segments pts)).get ⟨i, hzi⟩
      = (pts.get ⟨i, hi⟩, ((segments pts).drop 1 ++ segments pts).get ⟨i, hri⟩) := by
    simp [List.get_eq_getElem, List.getElem_zip]
  rw [hz] at hkey
  have hrot := drop_one_append_get (segments pts) i hsegi hri
  rw [hrot] at hkey
  have hmlt : (i + 1) % pts.length < pts.length := Nat.mod_lt _ (by omega)
  have hsg := segments_get pts ((i + 1) % pts.length) hmlt
    (by rw [segments_length]; exact hmlt)
  have hidxeq : (i + 1) % (segments pts).length = (i + 1) % pts.length := by
    rw [segments_length]
  have hmod2 : ((i + 1) % pts.length + 1) % pts.length = (i + 2) % pts.length := by
    rw [Nat.mod_add_mod]
  simp only [hidxeq, hsg, hmod2] at hkey
  exact ⟨contains_of_exact _ _ (perpendicular_ok_through _ _ _ hkey),
    perpendicular_ok_perpSeg _ _ _ hkey⟩

/-- Witness for C4 (amended) on the triangle `(0,0), (4,1), (1,5)`. -/
theorem perpendicular_heights_pairing_witness :
    3 ≤ ([⟨0, 0⟩, ⟨4, 1⟩, ⟨1, 5⟩] : Polygon).length ∧
    perpendicular_heights [⟨0, 0⟩, ⟨4, 1⟩, ⟨1, 5⟩] =
      .ok [⟨3/4, -1, 0⟩, ⟨-1/5, -1, 9/5⟩, ⟨-4, -1, 9⟩] ∧
    ([⟨3/4, -1, 0⟩, ⟨-1/5, -1, 9/5⟩, ⟨-4, -1, 9⟩] : List Line).length
      = ([⟨0, 0⟩, ⟨4, 1⟩, ⟨1, 5⟩] : Polygon).length :=
  ⟨by norm_num,
   by norm_num [perpendicular_heights, segments, mapE, Segment.perpendicular,
      gradient, Line.from_point_slope_form, Line.vline],
   (perpendicular_heights_pairing [⟨0, 0⟩, ⟨4, 1⟩, ⟨1, 5⟩] (by norm_num) _
     (by norm_num [perpendicular_heights, segments, mapE, Segment.perpendicular,
        gradient, Line.from_point_slope_form, Line.vline])).1⟩

/-- Counterexample to claim C4 as stated: for the triangle `(0,0), (4,1),
(1,5)` the first produced height is the line `(3/4, -1, 0)`, which does not
pass through vertex 1 = `(4,1)` (not even within tolerance) and is not
perpendicular to edge 0 (the segment from `(0,0)` to `(4,1)`); it instead
passes through vertex 0 and is perpendicular to edge 1. -/
theorem perpendicular_heights_counterexample :
    perpendicular_heights [⟨0, 0⟩, ⟨4, 1⟩, ⟨1, 5⟩] =
      .ok [⟨3/4, -1, 0⟩, ⟨-1/5, -1, 9/5⟩, ⟨-4, -1, 9⟩] ∧
    Line.contains ⟨3/4, -1, 0⟩ ⟨4, 1⟩ = false ∧
    ¬ Line.perpSeg ⟨3/4, -1, 0⟩ ⟨⟨0, 0⟩, ⟨4, 1⟩⟩ := by
  refine ⟨?_, ?_, ?_⟩
  · norm_num [perpendicular_heights, segments, mapE, Segment.perpendicular,
      gradient, Line.from_point_slope_form, Line.vline]
  · norm_num [Line.contains, EPSILON]
  · norm_num [Line.perpSeg]

/-- When `intersect` returns a Point, that point lies exactly on both
lines. -/
theorem intersect_pt_mem (l1 l2 : Line) (p : Point)
    (h : l1.intersect l2 = .pt p) :
    l1.a * p.x + l1.b * p.y + l1.c = 0 ∧
    l2.a * p.x + l2.b * p.y + l2.c = 0 := by
  by_cases hd : l1.b * l2.a - l1.a * l2.b = 0
  · simp only [Line.intersect, hd, if_pos] at h
    split at h <;> simp at h
  · simp only [Line.intersect] at h
    rw [if_neg hd] at h
    simp only [InterResult.pt.injEq] at h
    subst h
    by_cases hb : l1.b = 0
    · have ha1 : l1.a ≠ 0 := fun hz => hd (by rw [hb, hz]; ring)
      have hb2 : l2.b ≠ 0 := fun hz => hd (by rw [hb, hz]; ring)
      have hD : (0 : ℚ) * l2.a - l1.a * l2.b ≠ 0 := by simpa [hb] using hd
      simp only [Line.yPoint, hb, if_pos, Option.isSome_none, Bool.false_eq_true,
        if_false, Line.callX, hb2, if_neg]
      constructor
      · field_simp
        ring
      · field_simp
        ring
    · simp only [Line.yPoint, hb, if_neg, Option.isSome_some, if_true,
        Line.callX, if_false]
      constructor
      · field_simp
        ring
      · field_simp [hd]
        ring

/-- Any point lying exactly on a successfully constructed perpendicular of
`s` through `t` satisfies the orthogonality relation with respect to `s`
and `t`. -/
theorem perpendicular_ok_mem (s : Segment) (t : Point) (l : Line)
    (h : s.perpendicular t = .ok l) (P : Point)
    (hP : l.a * P.x + l.b * P.y + l.c = 0) :
    (P.x - t.x) * (s.B.x - s.A.x) + (P.y - t.y) * (s.B.y - s.A.y) = 0 := by
  by_cases hd : s.A.y - s.B.y = 0
  · simp only [Segment.perpendicular, hd, if_pos, Except.ok.injEq] at h
    subst h
    simp only [Line.vline] at hP
    have hBA : s.B.y - s.A.y = 0 := by linarith
    linear_combination (s.B.x - s.A.x) * hP + (P.y - t.y) * hBA
  · by_cases hx : s.A.x - s.B.x = 0
    · simp [Segment.perpendicular, gradient, hd, hx] at h
    · simp only [Segment.perpendicular, gradient, hd, hx, if_neg, if_false,
        Except.ok.injEq] at h
      subst h
      simp only [Line.from_point_slope_form] at hP
      field_simp at hP
      linear_combination hP

/-- Success of `circumcenter` on a triangle determines the three bisector
constructions and the intersected pair. -/
theorem circumcenter_three_ok (A B C : Point) (r : InterResult)
    (h : circumcenter [A, B, C] = .ok r) :
    ∃ l0 l1 l2 : Line,
      Segment.perpendicular_bisector ⟨A, B⟩ = .ok l0 ∧
      Segment.perpendicular_bisector ⟨B, C⟩ = .ok l1 ∧
      Segment.perpendicular_bisector ⟨C, A⟩ = .ok l2 ∧
      l0.intersect l1 = r := by
  have e : circumcenter [A, B, C] =
      match mapE Segment.perpendicular_bisector [⟨A, B⟩, ⟨B, C⟩, ⟨C, A⟩] with
      | .error e => .error e
      | .ok (b0 :: b1 :: _) => .ok (b0.intersect b1)
      | .ok _ => .error .valueError := rfl
  rw [e] at h
  simp only [mapE] at h
  cases hb0 : Segment.perpendicular_bisector ⟨A, B⟩ with
  | error e0 => simp only [hb0] at h; exact absurd h (by simp)
  | ok l0 =>
    simp only [hb0] at h
    cases hb1 : Segment.perpendicular_bisector ⟨B, C⟩ with
    | error e1 => simp only [hb1] at h; exact absurd h (by simp)
    | ok l1 =>
      simp only [hb1] at h
      cases hb2 : Segment.perpendicular_bisector ⟨C, A⟩ with
      | error e2 => simp only [hb2] at h; exact absurd h (by simp)
      | ok l2 =>
        simp only [hb2, Except.ok.injEq] at h
        exact ⟨l0, l1, l2, rfl, rfl, rfl, h⟩

/-- Success of `orthocenter` on a triangle determines the three height
constructions and the intersected pair. -/
theorem orthocenter_three_ok (A B C : Point) (r : InterResult)
    (h : orthocenter [A, B, C] = .ok r) :
    ∃ k0 k1 k2 : Line,
      Segment.perpendicular ⟨B, C⟩ A = .ok k0 ∧
      Segment.perpendicular ⟨C, A⟩ B = .ok k1 ∧
      Segment.perpendicular ⟨A, B⟩ C = .ok k2 ∧
      k0.intersect k1 = r := by
  have e : orthocenter [A, B, C] =
      match mapE (fun ps : Point × Segment => ps.2.perpendicular ps.1)
          [(A, Segment.mk B C), (B, Segment.mk C A), (C, Segment.mk A B)] with
      | .error e => .error e
      | .ok (h0 :: h1 :: _) => .ok (h0.intersect h1)
      | .ok _ => .error .valueError := rfl
  rw [e] at h
  simp only [mapE] at h
  cases hb0 : Segment.perpendicular ⟨B, C⟩ A with
  | error e0 => simp only [hb0] at h; exact absurd h (by simp)
  | ok k0 =>
    simp only [hb0] at h
    cases hb1 : Segment.perpendicular ⟨C, A⟩ B with
    | error e1 => simp only [hb1] at h; exact absurd h (by simp)
    | ok k1 =>
      simp only [hb1] at h
      cases hb2 : Segment.perpendicular ⟨A, B⟩ C with
      | error e2 => simp only [hb2] at h; exact absurd h (by simp)
      | ok k2 =>
        simp only [hb2, Except.ok.injEq] at h
        exact ⟨k0, k1, k2, rfl, rfl, rfl, h⟩

/-- Euler's relation: a point `O` equidistant from the three (non-collinear)
vertices and a point `H` on two altitudes satisfy `H = A + B + C - 2O`
componentwise. -/
theorem euler_center_identity (A B C O H : Point)
    (hnc : (B.x - A.x) * (C.y - A.y) - (B.y - A.y) * (C.x - A.x) ≠ 0)
    (h1 : (O.x - (A.x + B.x) / 2) * (B.x - A.x) +
      (O.y - (A.y + B.y) / 2) * (B.y - A.y) = 0)
    (h2 : (O.x - (B.x + C.x) / 2) * (C.x - B.x) +
      (O.y - (B.y + C.y) / 2) * (C.y - B.y) = 0)
    (h3 : (H.x - A.x) * (C.x - B.x) + (H.y - A.y) * (C.y - B.y) = 0)
    (h4 : (H.x - B.x) * (A.x - C.x) + (H.y - B.y) * (A.y - C.y) = 0) :
    H.x = A.x + B.x + C.x - 2 * O.x ∧ H.y = A.y + B.y + C.y - 2 * O.y := by
  have e1 : (H.x - (A.x + B.x + C.x - 2 * O.x)) * (C.x - B.x) +
      (H.y - (A.y + B.y + C.y - 2 * O.y)) * (C.y - B.y) = 0 := by
    linear_combination h3 + 2 * h2
  have e2 : (H.x - (A.x + B.x + C.x - 2 * O.x)) * (A.x - C.x) +
      (H.y - (A.y + B.y + C.y - 2 * O.y)) * (A.y - C.y) = 0 := by
    linear_combination h4 - 2 * h1 - 2 * h2
  have hd : (C.x - B.x) * (A.y - C.y) - (C.y - B.y) * (A.x - C.x) ≠ 0 := by
    intro hz
    exact hnc (by linear_combination hz)
  have hx0 : (H.x - (A.x + B.x + C.x - 2 * O.x)) *
      ((C.x - B.x) * (A.y - C.y) - (C.y - B.y) * (A.x - C.x)) = 0 := by
    linear_combination (A.y - C.y) * e1 - (C.y - B.y) * e2
  have hy0 : (H.y - (A.y + B.y + C.y - 2 * O.y)) *
      ((C.x - B.x) * (A.y - C.y) - (C.y - B.y) * (A.x - C.x)) = 0 := by
    linear_combination (C.x - B.x) * e2 - (A.x - C.x) * e1
  constructor
  · rcases mul_eq_zero.mp hx0 with h | h
    · linarith
    · exact absurd h hd
  · rcases mul_eq_zero.mp hy0 with h | h
    · linarith
    · exact absurd h hd

/-- Claim C3: for a triangle with non-collinear vertices whose
`circumcenter()` and `orthocenter()` return Points, `euler()` returns the
line through the circumcenter and the centroid; the centroid, circumcenter
and orthocenter all lie on it (within tolerance), and
`2 * dist(centroid, circumcenter)` equals `dist(centroid, orthocenter)`
within the global tolerance. -/
theorem euler_line_properties (A B C O H : Point)
    (hnc : (B.x - A.x) * (C.y - A.y) - (B.y - A.y) * (C.x - A.x) ≠ 0)
    (hO : circumcenter [A, B, C] = .ok (.pt O))
    (hH : orthocenter [A, B, C] = .ok (.pt H)) :
    euler [A, B, C] = .ok (Line.from_points O (centroid [A, B, C])) ∧
    (Line.from_points O (centroid [A, B, C])).contains (centroid [A, B, C]) = true ∧
    (Line.from_points O (centroid [A, B, C])).contains O = true ∧
    (Line.from_points O (centroid [A, B, C])).contains H = true ∧
    |2 * Point.dist (centroid [A, B, C]) O - Point.dist (centroid [A, B, C]) H|
      ≤ ((EPSILON : ℚ) : ℝ) := by
  obtain ⟨l0, l1, l2, hb0, hb1, hb2, hr⟩ := circumcenter_three_ok A B C _ hO
  obtain ⟨hm0, hm1⟩ := intersect_pt_mem l0 l1 O hr
  obtain ⟨k0, k1, k2, hh0, hh1, hh2, hrH⟩ := orthocenter_three_ok A B C _ hH
  obtain ⟨hq0, hq1⟩ := intersect_pt_mem k0 k1 H hrH
  have hO1 : (O.x - (A.x + B.x) / 2) * (B.x - A.x) +
      (O.y - (A.y + B.y) / 2) * (B.y - A.y) = 0 := by
    have := perpendicular_ok_mem ⟨A, B⟩ (Segment.midpoint ⟨A, B⟩) l0
      (by simpa [Segment.perpendicular_bisector] using hb0) O hm0
    simpa [Segment.midpoint] using this
  have hO2 : (O.x - (B.x + C.x) / 2) * (C.x - B.x) +
      (O.y - (B.y + C.y) / 2) * (C.y - B.y) = 0 := by
    have := perpendicular_ok_mem ⟨B, C⟩ (Segment.midpoint ⟨B, C⟩) l1
      (by simpa [Segment.perpendicular_bisector] using hb1) O hm1
    simpa [Segment.midpoint] using this
  have hH1 : (H.x - A.x) * (C.x - B.x) + (H.y - A.y) * (C.y - B.y) = 0 := by
    simpa using perpendicular_ok_mem ⟨B, C⟩ A k0 hh0 H hq0
  have hH2 : (H.x - B.x) * (A.x - C.x) + (H.y - B.y) * (A.y - C.y) = 0 := by
    simpa using perpendicular_ok_mem ⟨C, A⟩ B k1 hh1 H hq1
  obtain ⟨hHx, hHy⟩ := euler_center_identity A B C O H hnc hO1 hO2 hH1 hH2
  have hGx : (centroid [A, B, C]).x = (A.x + B.x + C.x) / 3 := by
    simp [centroid]
    ring
  have hGy : (centroid [A, B, C]).y = (A.y + B.y + C.y) / 3 := by
    simp [centroid]
    ring
  set G := centroid [A, B, C] with hGdef
  have hmem : ∀ P : Point, (P = O ∨ P = G ∨ P = H) →
      (Line.from_points O G).a * P.x + (Line.from_points O G).b * P.y +
        (Line.from_points O G).c = 0 := by
    intro P hP
    by_cases hOG : O.x = G.x
    · have hfp : Line.from_points O G = Line.vline O.x := by
        simp [Line.from_points, hOG]
      rw [hfp]
      simp only [Line.vline]
      rcases hP with rfl | rfl | rfl
      · ring
      · linarith
      · linarith
    · have hOGne : O.x - G.x ≠ 0 := sub_ne_zero.mpr hOG
      have hfp : Line.from_points O G =
          Line.from_point_slope_form O ((O.y - G.y) / (O.x - G.x)) := by
        simp [Line.from_points, hOG]
      rw [hfp]
      simp only [Line.from_point_slope_form]
      rcases hP with rfl | rfl | rfl
      · ring
      · field_simp
        ring
      · have e1 : P.x = 3 * G.x - 2 * O.x := by linarith
        have e2 : P.y = 3 * G.y - 2 * O.y := by linarith
        rw [e1, e2]
        field_simp
        ring
  refine ⟨?_, ?_, ?_, ?_, ?_⟩
  · have e : euler [A, B, C] =
        match circumcenter [A, B, C] with
        | .ok (.pt o) => .ok (Line.from_points o (centroid [A, B, C]))
        | .ok _ => .error .typeError
        | .error e => .error e := rfl
    rw [e, hO]
  · exact contains_of_exact _ _ (hmem G (Or.inr (Or.inl rfl)))
  · exact contains_of_exact _ _ (hmem O (Or.inl rfl))
  · exact contains_of_exact _ _ (hmem H (Or.inr (Or.inr rfl)))
  · have hdx : G.x - H.x = -2 * (G.x - O.x) := by linarith
    have hdy : G.y - H.y = -2 * (G.y - O.y) := by linarith
    have h2d : Point.dist G H = 2 * Point.dist G O := by
      unfold Point.dist
      rw [hdx, hdy]
      push_cast
      have e4 : ∀ u v : ℝ, (-2 * u) ^ 2 + (-2 * v) ^ 2 = 2 ^ 2 * (u ^ 2 + v ^ 2) := by
        intro u v
        ring
      rw [e4, Real.sqrt_mul (by positivity) _, Real.sqrt_sq (by norm_num)]
    rw [h2d]
    simp
    norm_num [EPSILON]

/-- Witness for C3 on the doctest triangle `(2,12), (0,0), (10,0)` with
circumcenter `(5, 16/3)` and orthocenter `(2, 4/3)`. -/
theorem euler_line_properties_witness :
    ((Point.mk 0 0).x - (Point.mk 2 12).x) * ((Point.mk 10 0).y - (Point.mk 2 12).y) -
      ((Point.mk 0 0).y - (Point.mk 2 12).y) * ((Point.mk 10 0).x - (Point.mk 2 12).x) ≠ 0 ∧
    circumcenter [⟨2, 12⟩, ⟨0, 0⟩, ⟨10, 0⟩] = .ok (.pt ⟨5, 16/3⟩) ∧
    orthocenter [⟨2, 12⟩, ⟨0, 0⟩, ⟨10, 0⟩] = .ok (.pt ⟨2, 4/3⟩) ∧
    euler [⟨2, 12⟩, ⟨0, 0⟩, ⟨10, 0⟩] =
      .ok (Line.from_points ⟨5, 16/3⟩ (centroid [⟨2, 12⟩, ⟨0, 0⟩, ⟨10, 0⟩])) ∧
    (Line.from_points ⟨5, 16/3⟩ (centroid [⟨2, 12⟩, ⟨0, 0⟩, ⟨10, 0⟩])).contains
      ⟨2, 4/3⟩ = true ∧
    |2 * Point.dist (centroid [⟨2, 12⟩, ⟨0, 0⟩, ⟨10, 0⟩]) ⟨5, 16/3⟩ -
        Point.dist (centroid [⟨2, 12⟩, ⟨0, 0⟩, ⟨10, 0⟩]) ⟨2, 4/3⟩|
      ≤ ((EPSILON : ℚ) : ℝ) := by
  have hO : circumcenter [⟨2, 12⟩, ⟨0, 0⟩, ⟨10, 0⟩] = .ok (.pt ⟨5, 16/3⟩) := by
    norm_num [circumcenter, perpendicular_bisectors, segments, mapE,
      Segment.perpendicular_bisector, Segment.perpendicular, Segment.midpoint,
      gradient, Line.from_point_slope_form, Line.vline,
      Line.intersect, Line.intercept, Line.yPoint, Line.callX]
  have hH : orthocenter [⟨2, 12⟩, ⟨0, 0⟩, ⟨10, 0⟩] = .ok (.pt ⟨2, 4/3⟩) := by
    norm_num [orthocenter, perpendicular_heights, segments, mapE,
      Segment.perpendicular, gradient, Line.from_point_slope_form, Line.vline,
      Line.intersect, Line.intercept, Line.yPoint, Line.callX]
  have T := euler_line_properties ⟨2, 12⟩ ⟨0, 0⟩ ⟨10, 0⟩ ⟨5, 16/3⟩ ⟨2, 4/3⟩
    (by norm_num) hO hH
  exact ⟨by norm_num, hO, hH, T.1, T.2.2.2.1, T.2.2.2.2⟩

end Geometry
